import Mathlib

/-!
Verification of the drive-command-splitter invoice splitting application.

The Python source (src/app.py, src/main.py) is shallowly embedded below:
strings become `List Char`, Python floats used for currency become `ℚ`,
dictionaries produced by `json.loads` become structures with `Option`
fields (a missing key is `none`), and the external collaborators
(the PDF reader, the LLM completion call and `json.loads` itself) become
function parameters so that the control flow of the repository's own code
can be stated and proved exactly.
-/

namespace DCS

/-! ### Python string primitives used by the response-repair code -/

/-- The characters Python's str.strip() removes: space, tab, newline,
carriage return, vertical tab, form feed. -/
def isPySpace (c : Char) : Bool :=
  c == ' ' || c == '\t' || c == '\n' || c == '\r' || c == '\x0b' || c == '\x0c'

/-- Model of Python `s.strip()`: drop leading and trailing whitespace. -/
def pyStrip (s : List Char) : List Char :=
  ((s.dropWhile isPySpace).reverse.dropWhile isPySpace).reverse

/-- Model of Python `s.replace(pat, "", 1)`: erase the first occurrence of
`pat` (here always called with a nonempty pattern). -/
def replaceFirstErase (pat : List Char) : List Char → List Char
  | [] => []
  | c :: rest =>
    if pat.isPrefixOf (c :: rest) then (c :: rest).drop pat.length
    else c :: replaceFirstErase pat rest

def fenceJson : List Char := "```json".data

def fenceMark : List Char := "```".data

/-- app.py lines 79-80: `if response_text.startswith("```json"):
response_text = response_text.replace("```json", "", 1)`. -/
def stripLeadingFence (t : List Char) : List Char :=
  if fenceJson.isPrefixOf t = true then replaceFirstErase fenceJson t else t

/-- app.py lines 81-82: `if response_text.endswith("```"):
response_text = response_text[:-3]`. -/
def stripTrailingFence (t : List Char) : List Char :=
  if fenceMark.isSuffixOf t = true then t.take (t.length - 3) else t

/-- The response repair performed by `extract_invoice_data`
(app.py lines 78-84): strip, drop a leading "```json" tag if present,
drop a trailing "```" fence if present, strip again before json.loads. -/
def repairResponse (s : List Char) : List Char :=
  pyStrip (stripTrailingFence (stripLeadingFence (pyStrip s)))

/-- Wrapping a text in the markdown fence the model tends to emit:
a leading "```json" tag-line and a trailing "```" fence. -/
def wrapFence (s : List Char) : List Char :=
  "```json\n".data ++ s ++ "\n```".data

/-- A clean JSON object text: an opening brace, a body, a closing brace.
Every valid JSON text of the Invoice shape with no surrounding whitespace
has this form. -/
def jsonObj (body : List Char) : List Char :=
  '\x7b' :: (body ++ ['\x7d'])

/-! ### The structured-extraction pipeline (app.py `extract_invoice_data`) -/

/-- Outcome alternatives of `extract_invoice_data`: a parsed record,
the missing-credential early return (app.py lines 38-40), or the
`json.JSONDecodeError` branch which shows the raw response text
(app.py lines 86-89). -/
inductive ExtractResult (J : Type) where
  | ok (data : J)
  | missingCredential
  | malformed (raw : List Char)
deriving DecidableEq

/-- Result of one processing attempt together with how many times the
completion capability was invoked during it. -/
structure ExtractOutcome (J : Type) where
  result : ExtractResult J
  completionCalls : Nat
deriving DecidableEq

/-- Python truthiness test `if not OPENROUTER_API_KEY` (app.py line 38):
the key counts as present when the environment holds a nonempty string. -/
def keyPresent : Option (List Char) → Bool
  | none => false
  | some s => !s.isEmpty

/-- The fixed instruction prompt of app.py lines 50-69, with the invoice
text interpolated at the end. -/
def promptFor (text : List Char) : List Char :=
  ("\n    Extract the following information from the invoice text and return it as JSON:\n    1. The invoice ID (a unique identifier, often a number)\n    2. The date of the invoice\n    3. A list of line items, each with:\n       - Item name\n       - Total price\n\n    Return the data in this format:\n    \x7b\"invoice_id\": \"the_extracted_id\",\n     \"date\": \"YYYY-MM-DD\",\n     \"line_items\": [\n        \x7b\"item_name\": \"First item\", \"total_price\": 100.0\x7d,\n        \x7b\"item_name\": \"Second item\", \"total_price\": 200.0\x7d\n      ]\n    \x7d\n\n    Text:\n    ").data
    ++ text ++ "\n    ".data

/-- Model of `extract_invoice_data` (app.py lines 32-89). The completion
capability `complete` and the JSON parser `parseJson` are external
collaborators passed as functions; the outcome records how often
`complete` was invoked. -/
def extract_invoice_data (J : Type) (apiKey : Option (List Char))
    (complete : List Char → List Char) (parseJson : List Char → Option J)
    (text : List Char) : ExtractOutcome J :=
  if keyPresent apiKey = false then
    ⟨ExtractResult.missingCredential, 0⟩
  else
    let response := complete (promptFor text)
    match parseJson (repairResponse response) with
    | some j => ⟨ExtractResult.ok j, 1⟩
    | none => ⟨ExtractResult.malformed response, 1⟩

/-! ### Data model -/

/-- The pydantic models of src/main.py: a line item with a name and a
total price (floats modelled as exact rationals). -/
structure LineItem where
  item_name : List Char
  total_price : ℚ
deriving DecidableEq

/-- A parsed line-item dictionary as app.py reads it: either key may be
absent, `item.get` supplies defaults for display (app.py lines 164-165). -/
structure RawLineItem where
  item_name : Option (List Char)
  total_price : Option ℚ
deriving DecidableEq

/-- A parsed invoice dictionary as app.py reads it with `.get` and `in`:
any of the three keys may be absent. -/
structure RawInvoice where
  invoice_id : Option (List Char)
  date : Option (List Char)
  line_items : Option (List RawLineItem)
deriving DecidableEq

/-- `invoice_data.get('invoice_id', 'N/A')` (app.py line 133). -/
def displayedInvoiceId (r : RawInvoice) : List Char :=
  r.invoice_id.getD "N/A".data

/-- `invoice_data.get('date', 'N/A')` (app.py line 135). -/
def displayedDate (r : RawInvoice) : List Char :=
  r.date.getD "N/A".data

/-- `item.get('item_name', 'Unknown item')` (app.py line 164). -/
def displayedItemName (it : RawLineItem) : List Char :=
  it.item_name.getD "Unknown item".data

/-- `item.get('total_price', 0.0)` (app.py line 165). -/
def displayedItemPrice (it : RawLineItem) : ℚ :=
  it.total_price.getD 0

/-- The two branches of the display code (app.py lines 138 and 228-229):
the item table renders only when the 'line_items' key is present and the
list is truthy, i.e. nonempty; otherwise the reportable empty-invoice
message is shown. -/
inductive InvoiceView where
  | emptyInvoice
  | itemTable
deriving DecidableEq

/-- `if 'line_items' in invoice_data and invoice_data['line_items']`
(app.py line 138), with the `else` of line 228. -/
def invoiceView (r : RawInvoice) : InvoiceView :=
  match r.line_items with
  | none => InvoiceView.emptyInvoice
  | some [] => InvoiceView.emptyInvoice
  | some (_ :: _) => InvoiceView.itemTable

/-! ### Allocation and settlement -/

/-- `invoice_data['line_items'][i]['total_price']` read through the list
of line items (out-of-range indices contribute the `getD` default, and
the safety claim shows they never occur in reachable states). -/
def priceAt (items : List LineItem) (i : Nat) : ℚ :=
  ((items[i]?).map LineItem.total_price).getD 0

/-- A participant's total (app.py lines 196-200): the sum of the prices
of the line items at the participant's assigned indices. -/
def participantTotal (items : List LineItem) (assigned : List Nat) : ℚ :=
  (assigned.map (priceAt items)).sum

/-- The sum of the prices at the indices assigned to neither participant. -/
def unassignedTotal (items : List LineItem) (a b : List Nat) : ℚ :=
  (((List.range items.length).filter (fun i => decide (i ∉ a ∧ i ∉ b))).map
    (priceAt items)).sum

/-- The two participants of the split. Person 1 of app.py is A,
person 2 is B. -/
inductive Participant where
  | A
  | B
deriving DecidableEq

def otherParticipant : Participant → Participant
  | Participant.A => Participant.B
  | Participant.B => Participant.A

/-- The payment summary (app.py lines 211-227): `none` when the totals
are equal ("All expenses are perfectly split!"), otherwise the owing
participant (the one with the smaller total) and the amount
`larger_total - total_expense / 2`. -/
def paymentSummary (t1 t2 : ℚ) : Option (Participant × ℚ) :=
  let total_expense := t1 + t2
  let split_amount := total_expense / 2
  if t2 < t1 then some (Participant.B, t1 - split_amount)
  else if t1 < t2 then some (Participant.A, t2 - split_amount)
  else none

/-! ### Session state and its operations -/

/-- The streamlit session state (app.py lines 97-103): the current parsed
invoice (or `none`) and the two participants' assigned index lists. -/
structure Session where
  invoice_data : Option RawInvoice
  person1_items : List Nat
  person2_items : List Nat
deriving DecidableEq

/-- The state right after app.py lines 98-103 run. -/
def initialSession : Session := Session.mk none [] []

/-- The line items of the currently displayed invoice (empty when no
invoice is loaded or the key is absent). -/
def lineItemsOf (s : Session) : List RawLineItem :=
  match s.invoice_data with
  | none => []
  | some r => r.line_items.getD []

/-- The Process Invoice button handler (app.py lines 115-124): store the
extraction result, whatever it is, and reset both selection lists. -/
def processInvoice (_s : Session) (result : Option RawInvoice) : Session :=
  Session.mk result [] []

/-- One participant's half of the per-row checkbox handling
(app.py lines 186-194): append the row index when the box is checked and
the index is absent, remove it when the box is unchecked and the index is
present, otherwise leave the list alone. -/
def updateList (checked : Bool) (i : Nat) (l : List Nat) : List Nat :=
  if checked = true ∧ i ∉ l then l ++ [i]
  else if checked = false ∧ i ∈ l then l.erase i
  else l

/-- The whole per-row checkbox handling (app.py lines 186-194), given the
two checkbox values for row `i`. -/
def updateRow (i : Nat) (c1 c2 : Bool) (s : Session) : Session :=
  Session.mk s.invoice_data (updateList c1 i s.person1_items)
    (updateList c2 i s.person2_items)

/-- The user flips participant 1's checkbox on row `i`: its new value is
the negation of the current membership, while participant 2's box keeps
its displayed value (app.py lines 173-183). -/
def toggle1 (i : Nat) (s : Session) : Session :=
  updateRow i (decide (i ∉ s.person1_items)) (decide (i ∈ s.person2_items)) s

/-- The user flips participant 2's checkbox on row `i`. -/
def toggle2 (i : Nat) (s : Session) : Session :=
  updateRow i (decide (i ∈ s.person1_items)) (decide (i ∉ s.person2_items)) s

/-- The operations a user can drive the session through. -/
inductive Op where
  | process (result : Option RawInvoice)
  | toggle1 (i : Nat)
  | toggle2 (i : Nat)

def step (s : Session) : Op → Session
  | Op.process r => processInvoice s r
  | Op.toggle1 i => toggle1 i s
  | Op.toggle2 i => toggle2 i s

def runOps (s : Session) : List Op → Session
  | [] => s
  | op :: rest => runOps (step s op) rest

/-- An operation the interface can actually emit in state `s`: checkboxes
exist only for the rows of the current line-item table (app.py line 163),
so a toggle's index is below the current number of line items. -/
def wfOp (s : Session) : Op → Bool
  | Op.process _ => true
  | Op.toggle1 i => decide (i < (lineItemsOf s).length)
  | Op.toggle2 i => decide (i < (lineItemsOf s).length)

def wfTrace (s : Session) : List Op → Bool
  | [] => true
  | op :: rest => wfOp s op && wfTrace (step s op) rest

/-- Every assigned index denotes a row of the current line-item table. -/
def validAlloc (s : Session) : Prop :=
  (∀ i ∈ s.person1_items, i < (lineItemsOf s).length) ∧
  (∀ i ∈ s.person2_items, i < (lineItemsOf s).length)

/-- The invoice of spec scenario 1: two items, Widget at 100.0 and
Gadget at 50.0. -/
def exampleInvoice : RawInvoice :=
  RawInvoice.mk (some "123".data) (some "2024-01-05".data)
    (some [RawLineItem.mk (some "Widget".data) (some 100),
           RawLineItem.mk (some "Gadget".data) (some 50)])

/-! ### Helper lemmas -/

/-- Closed form of the payment summary: no payer exactly on equal totals,
otherwise the participant with the smaller total owes half the difference. -/
theorem paymentSummary_eq (t1 t2 : ℚ) :
    paymentSummary t1 t2
      = if t1 = t2 then none
        else some (if t1 < t2 then Participant.A else Participant.B,
          |t1 - t2| / 2) := by
  rcases lt_trichotomy t1 t2 with h | h | h
  · have hne : ¬t1 = t2 := ne_of_lt h
    have h2 : ¬t2 < t1 := not_lt.mpr h.le
    simp only [paymentSummary, if_neg h2, if_pos h, if_neg hne,
      abs_of_neg (show t1 - t2 < 0 by linarith), Option.some.injEq,
      Prod.mk.injEq]
    exact ⟨trivial, by ring⟩
  · subst h
    simp [paymentSummary]
  · have hne : ¬t1 = t2 := (ne_of_lt h).symm
    have h2 : ¬t1 < t2 := not_lt.mpr h.le
    simp only [paymentSummary, if_pos h, if_neg hne, if_neg h2,
      abs_of_pos (show 0 < t1 - t2 by linarith), Option.some.injEq,
      Prod.mk.injEq]
    exact ⟨trivial, by ring⟩

/-- Passing a checkbox whose value equals the current membership leaves
the list unchanged. -/
theorem updateList_of_mem_eq (i : Nat) (l : List Nat) :
    updateList (decide (i ∈ l)) i l = l := by
  by_cases h : i ∈ l <;> simp [updateList, h]

/-- Flipping the checkbox flips membership (on duplicate-free lists, the
only ones the code produces). -/
theorem mem_updateList_flip (i : Nat) (l : List Nat) (hl : l.Nodup) :
    i ∈ updateList (decide (i ∉ l)) i l ↔ i ∉ l := by
  by_cases h : i ∈ l
  · have hd : decide (i ∉ l) = false := by simp [h]
    rw [hd, updateList]
    rw [if_neg (by simp), if_pos ⟨rfl, h⟩]
    simp [List.Nodup.mem_erase_iff hl, h]
  · simp [updateList, h]

theorem dropWhile_cons_not_space (c : Char) (l : List Char)
    (h : isPySpace c = false) :
    (c :: l).dropWhile isPySpace = c :: l := by
  simp [List.dropWhile_cons, h]

theorem pyStrip_of_ends (s : List Char)
    (h1 : s.dropWhile isPySpace = s)
    (h2 : s.reverse.dropWhile isPySpace = s.reverse) :
    pyStrip s = s := by
  rw [pyStrip, h1, h2, List.reverse_reverse]

theorem jsonObj_reverse (m : List Char) :
    (jsonObj m).reverse = '\x7d' :: (m.reverse ++ ['\x7b']) := by
  simp [jsonObj]

theorem pyStrip_jsonObj (m : List Char) : pyStrip (jsonObj m) = jsonObj m := by
  apply pyStrip_of_ends
  · exact dropWhile_cons_not_space _ _ (by decide)
  · rw [jsonObj_reverse]
    exact dropWhile_cons_not_space _ _ (by decide)

theorem wrapFence_reverse (x : List Char) :
    (wrapFence x).reverse
      = '`' :: '`' :: '`' :: '\n' ::
          (x.reverse ++ ['\n', 'n', 'o', 's', 'j', '`', '`', '`']) := by
  have hA : "```json\n".data = ['`', '`', '`', 'j', 's', 'o', 'n', '\n'] := rfl
  have hB : "\n```".data = ['\n', '`', '`', '`'] := rfl
  simp [wrapFence, hA, hB]

theorem pyStrip_wrapFence (x : List Char) :
    pyStrip (wrapFence x) = wrapFence x := by
  apply pyStrip_of_ends
  · exact dropWhile_cons_not_space _ _ (by decide)
  · rw [wrapFence_reverse]
    exact dropWhile_cons_not_space _ _ (by decide)

theorem isSuffixOf_fenceMark (x : List Char) :
    fenceMark.isSuffixOf (x ++ fenceMark) = true := by
  rw [List.isSuffixOf, List.reverse_append]
  exact List.isPrefixOf_iff_prefix.mpr (List.prefix_append _ _)

theorem take_append_fenceMark (u : List Char) :
    (u ++ fenceMark).take ((u ++ fenceMark).length - 3) = u := by
  have h : (u ++ fenceMark).length - 3 = u.length := by
    simp [fenceMark]
  rw [h, List.take_left]

theorem stripTrailingFence_of_suffix (u : List Char) :
    stripTrailingFence (u ++ fenceMark) = u := by
  rw [stripTrailingFence, if_pos (isSuffixOf_fenceMark u),
    take_append_fenceMark]

theorem stripTrailingFence_no_suffix (t : List Char)
    (h : fenceMark.isSuffixOf t = false) :
    stripTrailingFence t = t := by
  rw [stripTrailingFence, if_neg]
  simp [h]

theorem stripLeadingFence_no_prefix (t : List Char)
    (h : fenceJson.isPrefixOf t = false) :
    stripLeadingFence t = t := by
  rw [stripLeadingFence, if_neg]
  simp [h]

theorem pyStrip_pad_both (m : List Char) :
    pyStrip ('\n' :: (jsonObj m ++ ['\n'])) = jsonObj m := by
  rw [pyStrip]
  have h1 : ('\n' :: (jsonObj m ++ ['\n'])).dropWhile isPySpace
      = jsonObj m ++ ['\n'] := by
    rw [List.dropWhile_cons]
    simp only [show isPySpace '\n' = true from rfl, if_true]
    show (('\x7b' :: (m ++ ['\x7d'])) ++ ['\n']).dropWhile isPySpace = _
    rw [List.cons_append]
    exact dropWhile_cons_not_space _ _ (by decide)
  rw [h1]
  have h2 : (jsonObj m ++ ['\n']).reverse = '\n' :: (jsonObj m).reverse := by
    simp
  rw [h2, List.dropWhile_cons]
  simp only [show isPySpace '\n' = true from rfl, if_true]
  rw [jsonObj_reverse, dropWhile_cons_not_space _ _ (by decide),
    ← jsonObj_reverse, List.reverse_reverse]

theorem pyStrip_pad_left (m : List Char) :
    pyStrip ('\n' :: jsonObj m) = jsonObj m := by
  rw [pyStrip]
  have h1 : ('\n' :: jsonObj m).dropWhile isPySpace = jsonObj m := by
    rw [List.dropWhile_cons]
    simp only [show isPySpace '\n' = true from rfl, if_true]
    exact dropWhile_cons_not_space _ _ (by decide)
  rw [h1, jsonObj_reverse, dropWhile_cons_not_space _ _ (by decide),
    ← jsonObj_reverse, List.reverse_reverse]

theorem pyStrip_pad_right (m : List Char) :
    pyStrip (jsonObj m ++ ['\n']) = jsonObj m := by
  rw [pyStrip]
  have h1 : (jsonObj m ++ ['\n']).dropWhile isPySpace
      = jsonObj m ++ ['\n'] := by
    show (('\x7b' :: (m ++ ['\x7d'])) ++ ['\n']).dropWhile isPySpace = _
    rw [List.cons_append]
    exact dropWhile_cons_not_space _ _ (by decide)
  rw [h1]
  have h2 : (jsonObj m ++ ['\n']).reverse = '\n' :: (jsonObj m).reverse := by
    simp
  rw [h2, List.dropWhile_cons]
  simp only [show isPySpace '\n' = true from rfl, if_true]
  rw [jsonObj_reverse, dropWhile_cons_not_space _ _ (by decide),
    ← jsonObj_reverse, List.reverse_reverse]

/-- Repair leaves a clean JSON object text unchanged. -/
theorem repair_jsonObj (m : List Char) :
    repairResponse (jsonObj m) = jsonObj m := by
  rw [repairResponse, pyStrip_jsonObj,
    stripLeadingFence_no_prefix (jsonObj m) rfl,
    stripTrailingFence_no_suffix, pyStrip_jsonObj]
  rw [List.isSuffixOf, jsonObj_reverse]
  rfl

/-- Repair of a fully fence-wrapped clean JSON object recovers the object. -/
theorem repair_wrapFence (m : List Char) :
    repairResponse (wrapFence (jsonObj m)) = jsonObj m := by
  rw [repairResponse, pyStrip_wrapFence]
  have h1 : stripLeadingFence (wrapFence (jsonObj m))
      = ('\n' :: (jsonObj m ++ ['\n'])) ++ fenceMark := by
    show stripLeadingFence (wrapFence (jsonObj m))
        = '\n' :: (jsonObj m ++ ['\n'] ++ fenceMark)
    rw [List.append_assoc]
    rfl
  rw [h1, stripTrailingFence_of_suffix, pyStrip_pad_both]

/-- Repair strips a leading "```json" tag-line even when no trailing
fence is present. -/
theorem repair_leading_only (m : List Char) :
    repairResponse ("```json\n".data ++ jsonObj m) = jsonObj m := by
  have hstrip : pyStrip ("```json\n".data ++ jsonObj m)
      = "```json\n".data ++ jsonObj m := by
    apply pyStrip_of_ends
    · exact dropWhile_cons_not_space _ _ (by decide)
    · have hrev : ("```json\n".data ++ jsonObj m).reverse
          = '\x7d' :: (m.reverse ++ ('\x7b' :: "```json\n".data.reverse)) := by
        rw [List.reverse_append, jsonObj_reverse]
        simp
      rw [hrev]
      exact dropWhile_cons_not_space _ _ (by decide)
  have hlead : stripLeadingFence ("```json\n".data ++ jsonObj m)
      = '\n' :: jsonObj m := rfl
  rw [repairResponse, hstrip, hlead, stripTrailingFence_no_suffix,
    pyStrip_pad_left]
  rw [List.isSuffixOf, List.reverse_cons, jsonObj_reverse]
  rfl

/-- Repair strips a trailing "```" fence even when no leading tag-line
is present. -/
theorem repair_trailing_only (m : List Char) :
    repairResponse (jsonObj m ++ "\n```".data) = jsonObj m := by
  have hassoc : jsonObj m ++ "\n```".data
      = (jsonObj m ++ ['\n']) ++ fenceMark := by
    rw [List.append_assoc]
    rfl
  have hstrip : pyStrip (jsonObj m ++ "\n```".data)
      = jsonObj m ++ "\n```".data := by
    apply pyStrip_of_ends
    · show (('\x7b' :: (m ++ ['\x7d'])) ++ "\n```".data).dropWhile isPySpace = _
      rw [List.cons_append]
      exact dropWhile_cons_not_space _ _ (by decide)
    · have hrev : (jsonObj m ++ "\n```".data).reverse
          = '`' :: ('`' :: ('`' :: ('\n' :: (jsonObj m).reverse))) := by
        rw [List.reverse_append]
        rfl
      rw [hrev]
      exact dropWhile_cons_not_space _ _ (by decide)
  have hlead : stripLeadingFence (jsonObj m ++ "\n```".data)
      = jsonObj m ++ "\n```".data :=
    stripLeadingFence_no_prefix (jsonObj m ++ "\n```".data) rfl
  rw [repairResponse, hstrip, hlead, hassoc, stripTrailingFence_of_suffix,
    pyStrip_pad_right]

/-- The checkbox handler only ever adds the handled row's index. -/
theorem mem_updateList (c : Bool) (i j : Nat) (l : List Nat)
    (hj : j ∈ updateList c i l) : j ∈ l ∨ j = i := by
  unfold updateList at hj
  split_ifs at hj
  · simpa using hj
  · exact Or.inl (List.mem_of_mem_erase hj)
  · exact Or.inl hj

theorem lineItemsOf_updateRow (i : Nat) (c1 c2 : Bool) (s : Session) :
    lineItemsOf (updateRow i c1 c2 s) = lineItemsOf s := rfl

/-- One interface-emittable operation preserves index validity. -/
theorem validAlloc_step (s : Session) (op : Op) (hs : validAlloc s)
    (hwf : wfOp s op = true) : validAlloc (step s op) := by
  cases op with
  | process r =>
    constructor <;> intro i hi <;> simp [step, processInvoice] at hi
  | toggle1 i =>
    have hlt : i < (lineItemsOf s).length := by
      simpa [wfOp] using hwf
    constructor <;> intro j hj <;>
      rw [show step s (Op.toggle1 i) = toggle1 i s from rfl] at hj ⊢ <;>
      rw [toggle1, lineItemsOf_updateRow]
    · rcases mem_updateList _ _ _ _ hj with h | h
      · exact hs.1 j h
      · exact h ▸ hlt
    · rcases mem_updateList _ _ _ _ hj with h | h
      · exact hs.2 j h
      · exact h ▸ hlt
  | toggle2 i =>
    have hlt : i < (lineItemsOf s).length := by
      simpa [wfOp] using hwf
    constructor <;> intro j hj <;>
      rw [show step s (Op.toggle2 i) = toggle2 i s from rfl] at hj ⊢ <;>
      rw [toggle2, lineItemsOf_updateRow]
    · rcases mem_updateList _ _ _ _ hj with h | h
      · exact hs.1 j h
      · exact h ▸ hlt
    · rcases mem_updateList _ _ _ _ hj with h | h
      · exact hs.2 j h
      · exact h ▸ hlt

theorem validAlloc_runOps (s : Session) (ops : List Op) (hs : validAlloc s)
    (hwf : wfTrace s ops = true) : validAlloc (runOps s ops) := by
  induction ops generalizing s with
  | nil => exact hs
  | cons op rest ih =>
    rw [wfTrace, Bool.and_eq_true] at hwf
    exact ih (step s op) (validAlloc_step s op hs hwf.1) hwf.2

/-- Summing the price function over all positions gives the list sum. -/
theorem sum_range_priceAt (items : List LineItem) :
    ∑ i ∈ Finset.range items.length, priceAt items i
      = (items.map LineItem.total_price).sum := by
  induction items with
  | nil => simp
  | cons x xs ih =>
    rw [List.length_cons, Finset.sum_range_succ']
    have hsucc : ∀ i, priceAt (x :: xs) (i + 1) = priceAt xs i := by
      intro i
      simp [priceAt]
    have h0 : priceAt (x :: xs) 0 = x.total_price := by
      simp [priceAt]
    simp only [hsucc, h0, List.map_cons, List.sum_cons]
    rw [ih]
    ring

/-! ### Claim theorems -/

/-- C3: the payment summary computes `|totalA - totalB| / 2` owed by the
participant with the smaller total; swapping the totals swaps the payer
and keeps the amount; equal totals report no payer; 100 versus 50 yields
25 owed by B to A. -/
theorem c3_settlement_correct (t1 t2 : ℚ) :
    (paymentSummary t1 t2
      = if t1 = t2 then none
        else some (if t1 < t2 then Participant.A else Participant.B,
          |t1 - t2| / 2)) ∧
    paymentSummary t2 t1
      = (paymentSummary t1 t2).map (fun pa => (otherParticipant pa.1, pa.2)) ∧
    paymentSummary 100 50 = some (Participant.B, 25) := by
  refine ⟨paymentSummary_eq t1 t2, ?_, by norm_num [paymentSummary]⟩
  rw [paymentSummary_eq t1 t2, paymentSummary_eq t2 t1]
  rcases lt_trichotomy t1 t2 with h | h | h
  · rw [if_neg (ne_of_lt h).symm, if_neg (ne_of_lt h), if_neg (not_lt.mpr h.le),
      if_pos h]
    simp [otherParticipant, abs_sub_comm]
  · subst h
    simp
  · rw [if_neg (ne_of_lt h), if_neg (ne_of_lt h).symm, if_pos h,
      if_neg (not_lt.mpr h.le)]
    simp [otherParticipant, abs_sub_comm]

/-- C7: with the credential absent (or empty, which Python's truthiness
treats the same), processing stops with the missing-credential error and
the completion capability is invoked zero times. -/
theorem c7_missing_credential_no_call (J : Type) (apiKey : Option (List Char))
    (complete : List Char → List Char) (parseJson : List Char → Option J)
    (text : List Char) (hkey : keyPresent apiKey = false) :
    extract_invoice_data J apiKey complete parseJson text
      = ExtractOutcome.mk ExtractResult.missingCredential 0 := by
  simp [extract_invoice_data, hkey]

theorem c7_missing_credential_no_call_witness :
    extract_invoice_data Unit none (fun p => p) (fun _ => none) "doc".data
      = ExtractOutcome.mk ExtractResult.missingCredential 0 :=
  c7_missing_credential_no_call Unit none (fun p => p) (fun _ => none)
    "doc".data rfl

/-- C4: when the repaired response does not parse as JSON, the outcome is
the malformed-response error carrying the raw (unrepaired) response text,
with exactly one completion call: no crash, no retry, no partial
recovery of fields. -/
theorem c4_malformed_response (J : Type) (apiKey : Option (List Char))
    (complete : List Char → List Char) (parseJson : List Char → Option J)
    (text : List Char) (hkey : keyPresent apiKey = true)
    (hparse : parseJson (repairResponse (complete (promptFor text))) = none) :
    extract_invoice_data J apiKey complete parseJson text
      = ExtractOutcome.mk
          (ExtractResult.malformed (complete (promptFor text))) 1 := by
  simp [extract_invoice_data, hkey, hparse]

theorem c4_malformed_response_witness :
    extract_invoice_data Unit (some ['k']) (fun _ => "no json here".data)
      (fun _ => none) "invoice text".data
      = ExtractOutcome.mk (ExtractResult.malformed "no json here".data) 1 :=
  c4_malformed_response Unit (some ['k']) (fun _ => "no json here".data)
    (fun _ => none) "invoice text".data rfl rfl

/-- C9: submitting a new document for processing resets both participants'
assignment lists to empty, whatever the extraction result was. -/
theorem c9_process_resets_allocation (s : Session) (result : Option RawInvoice) :
    (processInvoice s result).person1_items = [] ∧
    (processInvoice s result).person2_items = [] ∧
    (processInvoice s result).invoice_data = result :=
  ⟨rfl, rfl, rfl⟩

/-- C1 is false on the code: checking item 0 for participant 1 and then
for participant 2 leaves index 0 in both assignment lists; the handler
never removes an index from the other participant's list. -/
theorem c1_counterexample :
    wfTrace (processInvoice initialSession (some exampleInvoice))
        [Op.toggle1 0, Op.toggle2 0] = true ∧
    0 ∈ (runOps (processInvoice initialSession (some exampleInvoice))
        [Op.toggle1 0, Op.toggle2 0]).person1_items ∧
    0 ∈ (runOps (processInvoice initialSession (some exampleInvoice))
        [Op.toggle1 0, Op.toggle2 0]).person2_items := by
  refine ⟨by decide, ?_, ?_⟩ <;>
    simp [runOps, step, toggle1, toggle2, updateRow, updateList,
      processInvoice, initialSession]

/-- C1 (amended): a toggle flips membership only in the named
participant's set and leaves the other participant's set unchanged; in
particular an index already assigned to the other participant stays
there, so an index can be assigned to both participants at once. -/
theorem c1_toggle_affects_only_named_set (s : Session) (i : Nat) :
    (toggle1 i s).person2_items = s.person2_items ∧
    (toggle2 i s).person1_items = s.person1_items ∧
    (s.person1_items.Nodup →
      (i ∈ (toggle1 i s).person1_items ↔ i ∉ s.person1_items)) ∧
    (s.person2_items.Nodup →
      (i ∈ (toggle2 i s).person2_items ↔ i ∉ s.person2_items)) := by
  refine ⟨?_, ?_, ?_, ?_⟩
  · simp [toggle1, updateRow, updateList_of_mem_eq]
  · simp [toggle2, updateRow, updateList_of_mem_eq]
  · intro hnd
    simpa [toggle1, updateRow] using mem_updateList_flip i s.person1_items hnd
  · intro hnd
    simpa [toggle2, updateRow] using mem_updateList_flip i s.person2_items hnd

theorem c1_toggle_affects_only_named_set_witness :
    (toggle1 5 (Session.mk none [0] [1])).person2_items = [1] ∧
    (5 ∈ (toggle1 5 (Session.mk none [0] [1])).person1_items ↔
      5 ∉ ([0] : List Nat)) := by
  have h := c1_toggle_affects_only_named_set (Session.mk none [0] [1]) 5
  exact ⟨h.1, h.2.2.1 (by decide)⟩

/-- C10: starting from a state whose assigned indices are all in range,
any sequence of interface-emittable operations keeps every assigned index
a valid position of the current invoice's line items, so the totals
summation never indexes out of range. -/
theorem c10_assigned_indices_in_range (s : Session) (ops : List Op)
    (hs : validAlloc s) (hwf : wfTrace s ops = true) :
    validAlloc (runOps s ops) ∧
    (∀ i ∈ (runOps s ops).person1_items,
      ((lineItemsOf (runOps s ops))[i]?).isSome = true) ∧
    (∀ i ∈ (runOps s ops).person2_items,
      ((lineItemsOf (runOps s ops))[i]?).isSome = true) := by
  have h := validAlloc_runOps s ops hs hwf
  refine ⟨h, ?_, ?_⟩
  · intro i hi
    simp [List.getElem?_eq_getElem (h.1 i hi)]
  · intro i hi
    simp [List.getElem?_eq_getElem (h.2 i hi)]

theorem c10_assigned_indices_in_range_witness :
    validAlloc (runOps (processInvoice initialSession (some exampleInvoice))
      [Op.toggle1 0, Op.toggle2 1]) := by
  have h := c10_assigned_indices_in_range
    (processInvoice initialSession (some exampleInvoice))
    [Op.toggle1 0, Op.toggle2 1]
    (by constructor <;> intro i hi <;> simp [processInvoice] at hi)
    (by decide)
  exact h.1

/-- C2: for disjoint duplicate-free assignment lists over valid indices,
the two participant totals plus the unassigned total add up to the sum of
all line items' total prices. -/
theorem c2_totals_partition (items : List LineItem) (a b : List Nat)
    (ha : a.Nodup) (hb : b.Nodup)
    (hav : ∀ i ∈ a, i < items.length) (hbv : ∀ i ∈ b, i < items.length)
    (hdisj : ∀ i ∈ a, i ∉ b) :
    participantTotal items a + participantTotal items b
        + unassignedTotal items a b
      = (items.map LineItem.total_price).sum := by
  have hA : participantTotal items a = ∑ i ∈ a.toFinset, priceAt items i := by
    rw [participantTotal, ← List.sum_toFinset _ ha]
  have hB : participantTotal items b = ∑ i ∈ b.toFinset, priceAt items i := by
    rw [participantTotal, ← List.sum_toFinset _ hb]
  have hU : unassignedTotal items a b
      = ∑ i ∈ (Finset.range items.length).filter
          (fun i => ¬i ∈ a ∧ ¬i ∈ b), priceAt items i := by
    rw [unassignedTotal,
      ← List.sum_toFinset _ (List.Nodup.filter _ (List.nodup_range _))]
    congr 1
    ext i
    simp
  have hsplit1 := Finset.sum_filter_add_sum_filter_not
    (Finset.range items.length) (fun i => i ∈ a) (priceAt items)
  have hsplit2 := Finset.sum_filter_add_sum_filter_not
    ((Finset.range items.length).filter (fun i => ¬i ∈ a))
    (fun i => i ∈ b) (priceAt items)
  have e1 : (Finset.range items.length).filter (fun i => i ∈ a)
      = a.toFinset := by
    ext i
    simp only [Finset.mem_filter, Finset.mem_range, List.mem_toFinset]
    exact ⟨fun h => h.2, fun h => ⟨hav i h, h⟩⟩
  have e2 : ((Finset.range items.length).filter (fun i => ¬i ∈ a)).filter
        (fun i => i ∈ b)
      = b.toFinset := by
    ext i
    simp only [Finset.mem_filter, Finset.mem_range, List.mem_toFinset]
    constructor
    · rintro ⟨⟨_, _⟩, h⟩
      exact h
    · intro h
      exact ⟨⟨hbv i h, fun ha' => hdisj i ha' h⟩, h⟩
  have e3 : ((Finset.range items.length).filter (fun i => ¬i ∈ a)).filter
        (fun i => ¬i ∈ b)
      = (Finset.range items.length).filter (fun i => ¬i ∈ a ∧ ¬i ∈ b) := by
    rw [Finset.filter_filter]
  rw [hA, hB, hU, ← sum_range_priceAt items, ← e1, ← e2, ← e3]
  linarith [hsplit1, hsplit2]

/-- Three line items for concrete evaluation: 100, 50 and 30. -/
def exampleItems : List LineItem :=
  [LineItem.mk "Widget".data 100, LineItem.mk "Gadget".data 50,
   LineItem.mk "Cable".data 30]

theorem c2_totals_partition_witness :
    participantTotal exampleItems [0] + participantTotal exampleItems [1]
        + unassignedTotal exampleItems [0] [1]
      = (exampleItems.map LineItem.total_price).sum :=
  c2_totals_partition exampleItems [0] [1] (by decide) (by decide)
    (by decide) (by decide) (by decide)

/-- C8: a missing invoice_id or date is displayed as "N/A"; a missing or
empty line_items list renders the reportable empty-invoice state rather
than crashing; right after processing such an invoice both assignment
lists are empty, so both totals are zero and the settlement reports no
payer. -/
theorem c8_missing_field_defaults (r : RawInvoice) (s : Session)
    (items : List LineItem) :
    (r.invoice_id = none → displayedInvoiceId r = "N/A".data) ∧
    (r.date = none → displayedDate r = "N/A".data) ∧
    ((r.line_items = none ∨ r.line_items = some []) →
      invoiceView r = InvoiceView.emptyInvoice) ∧
    participantTotal items (processInvoice s (some r)).person1_items = 0 ∧
    participantTotal items (processInvoice s (some r)).person2_items = 0 ∧
    paymentSummary 0 0 = none := by
  refine ⟨?_, ?_, ?_, rfl, rfl, ?_⟩
  · intro h
    simp [displayedInvoiceId, h]
  · intro h
    simp [displayedDate, h]
  · rintro (h | h) <;> simp [invoiceView, h]
  · simp [paymentSummary]

theorem c8_missing_field_defaults_witness :
    displayedInvoiceId (RawInvoice.mk none none none) = "N/A".data ∧
    displayedDate (RawInvoice.mk none none none) = "N/A".data ∧
    invoiceView (RawInvoice.mk none none none) = InvoiceView.emptyInvoice := by
  have h := c8_missing_field_defaults (RawInvoice.mk none none none)
    initialSession []
  exact ⟨h.1 rfl, h.2.1 rfl, h.2.2.1 (Or.inl rfl)⟩

/-- C5: a clean JSON object text parses to the same record whether it is
parsed directly or first wrapped in the "```json" fence and then put
through the repair steps: repair inverts the wrapping exactly and leaves
the clean text untouched. -/
theorem c5_repair_wrap_idempotent (J : Type) (m : List Char)
    (parseJson : List Char → Option J) :
    repairResponse (wrapFence (jsonObj m)) = jsonObj m ∧
    repairResponse (jsonObj m) = jsonObj m ∧
    parseJson (repairResponse (wrapFence (jsonObj m)))
      = parseJson (jsonObj m) := by
  refine ⟨repair_wrapFence m, repair_jsonObj m, ?_⟩
  rw [repair_wrapFence m]

/-- C6 is false on the code: the response "```json\n\x7b\x7d" carries
only the leading tag-line (it does not end with a fence) and has no
surrounding whitespace, yet repair removes the leading marker instead of
removing nothing. -/
theorem c6_counterexample :
    fenceJson.isPrefixOf "```json\n\x7b\x7d".data = true ∧
    fenceMark.isSuffixOf "```json\n\x7b\x7d".data = false ∧
    pyStrip "```json\n\x7b\x7d".data = "```json\n\x7b\x7d".data ∧
    repairResponse "```json\n\x7b\x7d".data = "\x7b\x7d".data ∧
    repairResponse "```json\n\x7b\x7d".data ≠ "```json\n\x7b\x7d".data := by
  refine ⟨by decide, by decide, by decide, by decide, by decide⟩

/-- C6 (amended): the two markers are stripped independently, not as a
pair: a leading "```json" tag-line is removed whenever present, a
trailing "```" fence is removed whenever present, and when both are
present exactly the wrapping is removed. -/
theorem c6_fences_stripped_independently (m : List Char) :
    repairResponse ("```json\n".data ++ jsonObj m) = jsonObj m ∧
    repairResponse (jsonObj m ++ "\n```".data) = jsonObj m ∧
    repairResponse (wrapFence (jsonObj m)) = jsonObj m :=
  ⟨repair_leading_only m, repair_trailing_only m, repair_wrapFence m⟩

end DCS
